import Mathlib

/-!
Verification development for the `wltrace` packet-trace library.

The Python sources are shallowly embedded: pure helpers become Lean
functions, header parsers become functions over byte lists
(`List Nat`, one entry per byte) returning `Except`, and the streaming
engine becomes explicit state passing.  Python floats are modelled by
exact rationals (`ℚ`); machine integers in the sources are plain Python
ints (arbitrary precision), so they are modelled by `Nat`/`Int` without
wrap-around.  A Python value that may be `None` (or an attribute that
may be missing) is modelled by `Option`; a routine that may raise is
modelled by `Except`.
-/

namespace Wltrace

/-- Python exceptions that matter to control flow: `IOError` is caught by
the capture loops, every other exception class is not. -/
inductive PyErr
  | ioError
  | otherError
  deriving DecidableEq, Repr

/-- Decidable equality on `Except`, so that concrete runs of the
embedded parsers can be settled by `decide`. -/
instance {ε α : Type} [DecidableEq ε] [DecidableEq α] : DecidableEq (Except ε α) := fun a b =>
  match a, b with
  | .ok x, .ok y =>
    if h : x = y then .isTrue (by rw [h]) else .isFalse (by intro hc; cases hc; exact h rfl)
  | .error x, .error y =>
    if h : x = y then .isTrue (by rw [h]) else .isFalse (by intro hc; cases hc; exact h rfl)
  | .ok _, .error _ => .isFalse (by intro hc; cases hc)
  | .error _, .ok _ => .isFalse (by intro hc; cases hc)

/-- Python's `abs` on rationals, kept as an executable definition. -/
def ratAbs (q : ℚ) : ℚ :=
  if q < 0 then -q else q

/-! ### utils.py -/

/-- `utils.align_up`: align `offset` up to `align` boundary. -/
def align_up (offset align : Nat) : Nat :=
  let remain := offset % align
  if remain = 0 then offset else offset + (align - remain)

/-- `utils.win_ts_to_unix_epoch`: convert a Windows FILETIME split into
high/low 32-bit halves to a POSIX timestamp, as
`high * ((2 ** 32) / 1e9) + low / 1e9 - 11644473600` (exact rationals). -/
def win_ts_to_unix_epoch (high low : Nat) : ℚ :=
  (high : ℚ) * ((2 ^ 32 : ℚ) / 1000000000) + (low : ℚ) / 1000000000 - 11644473600

/-! ### Byte-level primitives

`struct.unpack` style decoding over `List Nat` byte lists.  Little-endian
puts the least significant byte first.
-/

/-- Little-endian value of a byte list (first byte least significant). -/
def leVal (bs : List Nat) : Nat :=
  bs.foldr (fun b acc => b + 256 * acc) 0

/-- Big-endian value of a byte list (first byte most significant). -/
def beVal (bs : List Nat) : Nat :=
  bs.foldl (fun acc b => acc * 256 + b) 0

/-- Two's-complement signed reading of an 8-bit value. -/
def toSigned8 (v : Nat) : Int :=
  if v < 128 then (v : Int) else (v : Int) - 256

/-- Two's-complement signed reading of a 32-bit value. -/
def toSigned32 (v : Nat) : Int :=
  if v < 2 ^ 31 then (v : Int) else (v : Int) - 2 ^ 32

/-- `fh.read(n)` from position `pos`: returns the bytes actually
available, at most `n`. -/
def readAvail (data : List Nat) (pos n : Nat) : List Nat :=
  (data.drop pos).take n

/-- A bounded read that must return exactly `n` bytes; a short read is an
`IOError` (`GenericHeader.__init__` and the capture loops raise
`IOError("Short read ...")` in that case). -/
def readExact (data : List Nat) (pos n : Nat) : Except PyErr (List Nat × Nat) :=
  let raw := readAvail data pos n
  if raw.length = n then .ok (raw, pos + n) else .error .ioError

/-- `struct.unpack_from(fmt, rest, offset)` for a field of `n` bytes:
reading past the end of the buffer raises `struct.error`, which is not an
`IOError`. -/
def unpackFrom (rest : List Nat) (offset n : Nat) : Except PyErr (List Nat) :=
  let raw := (rest.drop offset).take n
  if raw.length = n then .ok raw else .error .otherError

/-! ### dot11.py: MCS table and conversions -/

/-- `dot11.MCS_TABLE`, in the CPython iteration order of the dict (the
keys 0..15 are consecutive small ints, which iterate in increasing
order).  Columns per MCS index: 20MHz-LGI, 20MHz-SGI, 40MHz-LGI,
40MHz-SGI, 80MHz-LGI, 80MHz-SGI, 160MHz-LGI, 160MHz-SGI.  The Python
table mixes ints and floats; both are modelled as exact rationals. -/
def MCS_TABLE : List (Nat × List ℚ) :=
  [ (0, [6.5, 7.2, 13.5, 15, 29.3, 32.5, 58.5, 65]),
    (1, [13, 14.4, 27, 30, 58.5, 65, 117, 130]),
    (2, [19.5, 21.7, 40.5, 45, 87.8, 97.5, 175.5, 195]),
    (3, [26, 28.9, 54, 60, 117, 130, 234, 260]),
    (4, [39, 43.3, 81, 90, 175.5, 195, 351, 390]),
    (5, [52, 57.8, 108, 120, 234, 260, 468, 520]),
    (6, [58.5, 65, 121.5, 135, 263.3, 292.5, 526.5, 585]),
    (7, [65, 72.2, 135, 150, 292.5, 325, 585, 650]),
    (8, [13, 14.4, 27, 30, 58.5, 65, 117, 130]),
    (9, [26, 28.9, 54, 60, 117, 130, 234, 260]),
    (10, [39, 43.3, 81, 90, 175.5, 195, 351, 390]),
    (11, [52, 57.8, 108, 120, 234, 260, 468, 520]),
    (12, [78, 86.7, 162, 180, 351, 390, 702, 780]),
    (13, [104, 115.6, 216, 240, 468, 520, 936, 1040]),
    (14, [117, 130.3, 243, 270, 526.5, 585, 1053, 1170]),
    (15, [130, 144.4, 270, 300, 585, 650, 1170, 1300]) ]

/-- Column index `int((math.log(bw/10, 2)-1)*2)` for the four accepted
bandwidths (the float logarithm is exact enough that truncation gives
these integers on CPython doubles). -/
def bwIdx (bw : Nat) : Nat :=
  if bw = 20 then 0 else if bw = 40 then 2 else if bw = 80 then 4 else 6

/-- `dot11.mcs_to_rate`: MCS index plus bandwidth and guard interval to a
rate in Mbps.  `none` models the `Exception` raised for a bandwidth not
in `[20, 40, 80, 160]` or an MCS index outside the table. -/
def mcs_to_rate (mcs : Nat) (bw : Nat := 20) (long_gi : Bool := true) : Option ℚ :=
  if ¬(bw = 20 ∨ bw = 40 ∨ bw = 80 ∨ bw = 160) then none
  else
    match MCS_TABLE.lookup mcs with
    | none => none
    | some rates =>
      let idx := bwIdx bw + (if long_gi then 0 else 1)
      rates.get? idx

/-- `dot11.rate_to_mcs`: scan `MCS_TABLE` in iteration order and return
the first MCS index whose rate in the selected column is within `1e-3`
of `rate`.  `none` models the exceptions (unknown bandwidth, no match). -/
def rate_to_mcs (rate : ℚ) (bw : Nat := 20) (long_gi : Bool := true) : Option Nat :=
  if ¬(bw = 20 ∨ bw = 40 ∨ bw = 80 ∨ bw = 160) then none
  else
    let idx := bwIdx bw + (if long_gi then 0 else 1)
    (MCS_TABLE.find? (fun e => ratAbs (e.2.getD idx 0 - rate) < 1 / 1000)).map (·.1)

/-! ### wltrace.py / capture.py: file magic dispatch -/

/-- `struct.pack` of an unsigned 32-bit value, little endian. -/
def packU32LE (v : Nat) : List Nat :=
  [v % 256, v / 256 % 256, v / 256 ^ 2 % 256, v / 256 ^ 3 % 256]

/-- `struct.pack` of an unsigned 32-bit value, big endian. -/
def packU32BE (v : Nat) : List Nat :=
  [v / 256 ^ 3 % 256, v / 256 ^ 2 % 256, v / 256 % 256, v % 256]

/-- `pcap.PCAP_FILE_MAGIC_LE = struct.pack('<I', 0xa1b2c3d4)`. -/
def PCAP_FILE_MAGIC_LE : List Nat := packU32LE 0xa1b2c3d4

/-- `pcap.PCAP_FILE_MAGIC_BE = struct.pack('>I', 0xa1b2c3d4)`. -/
def PCAP_FILE_MAGIC_BE : List Nat := packU32BE 0xa1b2c3d4

/-- `pcap.PCAP_FILE_MAGIC_LE_NS = struct.pack('<I', 0xa1b23c4d)`. -/
def PCAP_FILE_MAGIC_LE_NS : List Nat := packU32LE 0xa1b23c4d

/-- `pcap.PCAP_FILE_MAGIC_BE_NS = struct.pack('>I', 0xa1b23c4d)`. -/
def PCAP_FILE_MAGIC_BE_NS : List Nat := packU32BE 0xa1b23c4d

/-- `peektagged.PEEKTAGGED_FILE_MAGIC = '\x7fver'` as bytes. -/
def PEEKTAGGED_FILE_MAGIC : List Nat := [0x7f, 0x76, 0x65, 0x72]

/-- The keys of `wltrace.FILE_TYPE_HANDLER` (the five known magics). -/
def fileTypeMagics : List (List Nat) :=
  [PCAP_FILE_MAGIC_LE, PCAP_FILE_MAGIC_BE, PCAP_FILE_MAGIC_LE_NS,
   PCAP_FILE_MAGIC_BE_NS, PEEKTAGGED_FILE_MAGIC]

/-! ### radiotap.py -/

/-- Which slot of the radiotap field table a present bit fills
(`RadiotapHeader.PRESENT_FLAGS` tags; `unused` stands for the padding
formats `x`/`xx`). -/
inductive RTField
  | mactime | flagsF | rate | channel | unused | signal | noise | mcsF | ampdu
  deriving DecidableEq, Repr

/-- `RadiotapHeader.PRESENT_FLAGS`: bit index, field byte width
(`struct.calcsize` of the format), alignment, and target field. -/
def PRESENT_FLAGS : List (Nat × Nat × Nat × RTField) :=
  [ (0, 8, 8, .mactime),
    (1, 1, 1, .flagsF),
    (2, 1, 1, .rate),
    (3, 4, 2, .channel),
    (4, 2, 1, .unused),
    (5, 1, 1, .signal),
    (6, 1, 1, .noise),
    (7, 2, 2, .unused),
    (8, 2, 2, .unused),
    (9, 2, 2, .unused),
    (10, 1, 1, .unused),
    (11, 1, 1, .unused),
    (12, 1, 1, .unused),
    (13, 1, 1, .unused),
    (14, 2, 2, .unused),
    (19, 3, 1, .mcsF),
    (20, 8, 4, .ampdu) ]

/-- The raw attribute bag filled by the `PRESENT_FLAGS` loop of
`RadiotapHeader.__init__` (absent bit: attribute set to `None`). -/
structure RTRaw where
  mactime : Option Nat := none
  flags : Option Nat := none
  rateRaw : Option Nat := none
  channel : Option Nat := none
  signal : Option Int := none
  noise : Option Int := none
  mcsTriple : Option (Int × Int × Int) := none
  ampdu : Option (Nat × Nat) := none
  deriving DecidableEq, Repr

/-- One step of the `PRESENT_FLAGS` loop: decode the field bytes `raw`
into the attribute slot `f`. -/
def rtSetField (r : RTRaw) (f : RTField) (raw : List Nat) : RTRaw :=
  match f with
  | .mactime => { r with mactime := some (leVal raw) }
  | .flagsF => { r with flags := some (leVal raw) }
  | .rate => { r with rateRaw := some (leVal raw) }
  | .channel => { r with channel := some (leVal raw) }
  | .unused => r
  | .signal => { r with signal := some (toSigned8 (leVal raw)) }
  | .noise => { r with noise := some (toSigned8 (leVal raw)) }
  | .mcsF =>
    { r with mcsTriple := some (toSigned8 (raw.getD 0 0), toSigned8 (raw.getD 1 0),
                                toSigned8 (raw.getD 2 0)) }
  | .ampdu => { r with ampdu := some (leVal (raw.take 4), leVal ((raw.drop 4).take 2)) }

/-- The `PRESENT_FLAGS` loop of `RadiotapHeader.__init__`: for each
present bit, align the offset up, `struct.unpack_from` the field, and
advance; a read past the end of `rest` is a `struct.error`. -/
def rtFieldLoop (it_present : Nat) (rest : List Nat) :
    List (Nat × Nat × Nat × RTField) → Nat → RTRaw → Except PyErr (RTRaw × Nat)
  | [], offset, r => .ok (r, offset)
  | (idx, size, align, f) :: entries, offset, r =>
    if it_present / 2 ^ idx % 2 = 1 then do
      let offset := align_up offset align
      let raw ← unpackFrom rest offset size
      rtFieldLoop it_present rest entries (offset + size) (rtSetField r f raw)
    else
      rtFieldLoop it_present rest entries offset r

/-- The `it_present` extension-word loop: while bit 31 of the previous
word is set, read another 32-bit word from `rest` and accumulate it as
`(word << (offset * 8)) + it_present`.  Structure rules out an infinite
loop via fuel; fuel exhaustion can only happen when a read would have
failed anyway. -/
def rtExtWords (rest : List Nat) : Nat → Nat → Nat → Nat → Except PyErr (Nat × Nat)
  | 0, _, _, _ => .error .otherError
  | fuel + 1, present, acc, offset =>
    if present / 2 ^ 31 > 0 then do
      let raw ← unpackFrom rest offset 4
      let w := leVal raw
      let offset := offset + 4
      rtExtWords rest fuel w (w * 2 ^ (offset * 8) + acc) offset
    else
      .ok (acc, offset)

/-- The decoded radiotap header: raw attributes plus the derived fields
computed at the end of `RadiotapHeader.__init__`.  `it_len`, `flags`,
`channel` and `ampdu` model the source attributes `_it_len`, `_flags`,
`_channel` and `_ampdu` — these are the only spellings the object
carries: there is no `it_len`, `ampdu` or `end_epoch_ts` attribute, and
`last_frame` exists only when present-bit 20 is set, so reading any of
those names on this object raises `AttributeError` (which matters in
`pcap.py`; see `pcapReadOnePkt` and `pcapNextGoE`).  Truthy ints
(`has_fcs`, `fcs_error`, `last_frame`) are modelled by their truth
value. -/
structure RadiotapHeader where
  it_len : Nat
  it_present : Nat
  mactime : Option Nat
  flags : Option Nat
  channel : Option Nat
  signal : Option Int
  noise : Option Int
  freq_mhz : Option Nat
  freq_flag : Option Nat
  has_fcs : Bool
  fcs_error : Option Bool
  rate : Option ℚ
  mcs : Option Int
  ampdu : Option (Nat × Nat)
  ampdu_ref : Option Nat
  last_frame : Option Bool
  deriving DecidableEq, Repr

/-- `RadiotapHeader.__init__` over the bytes of one record payload,
starting at `pos`: fixed 8-byte preamble (short read: `IOError`),
version check, read of the `it_len - 8` remaining header bytes (short
read here raises a plain `Exception`), extension words, field loop, and
the derived-field post-processing.  Returns the header and the position
just past the `it_len` header bytes. -/
def parseRadiotap (data : List Nat) (pos : Nat) : Except PyErr (RadiotapHeader × Nat) := do
  let (pre, pos1) ← readExact data pos 8
  let it_version := pre.getD 0 0
  let it_len := leVal ((pre.drop 2).take 2)
  let it_present0 := leVal ((pre.drop 4).take 4)
  if it_version ≠ 0 then .error .otherError
  else if it_len < 8 then .error .otherError
  else
    let rest_len := it_len - 8
    let (rest, pos2) := (readAvail data pos1 rest_len, pos1 + rest_len)
    if rest.length ≠ rest_len then .error .otherError
    else do
      let (it_present, offset) ← rtExtWords rest (rest.length / 4 + 1) it_present0 it_present0 0
      let (r, _) ← rtFieldLoop it_present rest PRESENT_FLAGS offset {}
      let freq_mhz := if it_present / 2 ^ 3 % 2 = 1 then (r.channel.map (· % 2 ^ 16)) else none
      let freq_flag := if it_present / 2 ^ 3 % 2 = 1 then (r.channel.map (· / 2 ^ 16)) else none
      let has_fcs := it_present / 2 ^ 1 % 2 = 1 ∧ (r.flags.getD 0) / 2 ^ 4 % 2 = 1
      let fcs_error : Option Bool :=
        if it_present / 2 ^ 1 % 2 = 1 then some ((r.flags.getD 0) / 2 ^ 6 % 2 = 1) else none
      let rate1 : Option ℚ :=
        if it_present / 2 ^ 2 % 2 = 1 then r.rateRaw.map (fun v => (v : ℚ) / 2) else none
      if it_present / 2 ^ 19 % 2 = 1 then
        match r.mcsTriple with
        | none => .error .otherError
        | some (_, mcs_flags, mcs_idx) =>
          -- bandwidth 20 MHz when `mcs_flags & 0x3 in [0, 2, 3]`, else 40;
          -- long GI iff `mcs_flags & 0x4 == 0` (Python `&` on a possibly
          -- negative int with mask 2^k-1 is `emod 2^k`).
          let bw := if mcs_flags.emod 4 = 1 then 40 else 20
          let long_gi := decide (mcs_flags.emod 8 < 4)
          if mcs_idx < 0 then .error .otherError
          else
            match mcs_to_rate mcs_idx.toNat bw long_gi with
            | none => .error .otherError
            | some rmcs =>
              .ok ({ it_len := it_len, it_present := it_present, mactime := r.mactime,
                     flags := r.flags, channel := r.channel, signal := r.signal,
                     noise := r.noise, freq_mhz := freq_mhz, freq_flag := freq_flag,
                     has_fcs := decide has_fcs, fcs_error := fcs_error, rate := some rmcs,
                     mcs := some mcs_idx, ampdu := r.ampdu,
                     ampdu_ref := if it_present / 2 ^ 20 % 2 = 1 then r.ampdu.map (·.1) else none,
                     last_frame := if it_present / 2 ^ 20 % 2 = 1 then
                       r.ampdu.map (fun a => a.2 / 2 ^ 3 % 2 = 1) else none }, pos2)
      else
        .ok ({ it_len := it_len, it_present := it_present, mactime := r.mactime,
               flags := r.flags, channel := r.channel, signal := r.signal,
               noise := r.noise, freq_mhz := freq_mhz, freq_flag := freq_flag,
               has_fcs := decide has_fcs, fcs_error := fcs_error, rate := rate1,
               mcs := none, ampdu := r.ampdu,
               ampdu_ref := if it_present / 2 ^ 20 % 2 = 1 then r.ampdu.map (·.1) else none,
               last_frame := if it_present / 2 ^ 20 % 2 = 1 then
                 r.ampdu.map (fun a => a.2 / 2 ^ 3 % 2 = 1) else none }, pos2)

/-! ### common.py `PhyInfo` / the attribute bag a frame's `phy` exposes

On the Pcap path the `phy` object is the `RadiotapHeader` instance
itself with `len`, `caplen`, `timestamp` and `epoch_ts` assigned on top;
on the peek-tagged path it is a `PhyInfo` built by
`PeektaggedPacketHeader.to_phy`.  Both are modelled by one structure;
a `none` in an `Option` field stands for Python `None` or for the
attribute being absent altogether (as `end_epoch_ts` is on the Pcap
path).  `datetime` values are modelled as rational POSIX seconds. -/
structure Phy where
  signal : Option Int := none
  noise : Option Int := none
  freq_mhz : Option Nat := none
  has_fcs : Bool := false
  fcs_error : Option Bool := none
  epoch_ts : ℚ := 0
  end_epoch_ts : Option ℚ := none
  rate : Option ℚ := none
  mcs : Option Int := none
  len : Int := 0
  caplen : Nat := 0
  mactime : Option Nat := none
  ampdu : Option (Nat × Nat) := none
  ampdu_ref : Option Nat := none
  last_frame : Option Bool := none
  timestamp : ℚ := 0
  deriving DecidableEq, Repr

/-! ### pcap.py -/

/-- The fields of the already-parsed Pcap global header that
`_read_one_pkt` consults (`PcapHeader.__init__` has validated the magic
and version 2.4 at open time).  `bigEndian` is the `>` endianness
deduced from the magic; `nano_ts` distinguishes the nanosecond magics. -/
structure PcapGlobal where
  bigEndian : Bool
  nano_ts : Bool
  thiszone : Int
  snaplen : Nat
  network : Nat
  deriving DecidableEq, Repr

/-- Endianness-directed decode of 4 bytes. -/
def u32Dec (g : PcapGlobal) (bs : List Nat) : Nat :=
  if g.bigEndian then beVal bs else leVal bs

/-- `pcap.PcapPacketHeader` after `__init__`: the four record fields,
the `datetime` timestamp (seconds, using the 1e9 divisor for nanosecond
magics), and `epoch_ts`, which the source computes as
`ts_sec + ts_usec / 1.0e6` with the 1e6 divisor regardless of
`nano_ts`. -/
structure PcapPacketHeader where
  ts_sec : Nat
  ts_usec : Nat
  incl_len : Nat
  orig_len : Nat
  timestamp : ℚ
  epoch_ts : ℚ
  deriving DecidableEq, Repr

/-- `PcapPacketHeader.__init__`: unpack 16 bytes with the file's
endianness (short read: `IOError`), then derive both timestamps. -/
def parsePcapPacketHeader (g : PcapGlobal) (data : List Nat) (pos : Nat) :
    Except PyErr (PcapPacketHeader × Nat) := do
  let (raw, pos1) ← readExact data pos 16
  let ts_sec := u32Dec g (raw.take 4)
  let ts_usec := u32Dec g ((raw.drop 4).take 4)
  let incl_len := u32Dec g ((raw.drop 8).take 4)
  let orig_len := u32Dec g ((raw.drop 12).take 4)
  .ok ({ ts_sec := ts_sec, ts_usec := ts_usec, incl_len := incl_len, orig_len := orig_len,
         timestamp := (ts_sec : ℚ) + (ts_usec : ℚ) / (if g.nano_ts then 1000000000 else 1000000),
         epoch_ts := (ts_sec : ℚ) + (ts_usec : ℚ) / 1000000 }, pos1)

/-- `PcapCapture._read_one_pkt` (pcap.py lines 159-190) as this
snapshot of the source actually behaves: record header (short read:
`IOError`), `incl_len > snaplen` check (`PcapException`, not an
`IOError`), read of the `incl_len` payload bytes (short read:
`IOError`), then for linktype 127 the radiotap parse
(`RadiotapHeader(pkt_fh)`), whose own failures propagate.  The next
statement, `phy.len = pkt_header.orig_len - phy.it_len` (line 173),
reads the attribute `it_len`, which the radiotap object never defines
(its field is `_it_len`), so every record that parses this far raises
`AttributeError` — a non-IO error — before `phy.len`, `phy.caplen`,
`phy.timestamp` or `phy.epoch_ts` is assigned and before any
`Dot11Packet` is built.  For linktype 105 the call
`radiotap.RadiotapHeader()` without a file handle raises `TypeError`
immediately.  The success type records what the function is declared to
return; no input reaches it (`pcapReadOnePkt_no_frame`). -/
def pcapReadOnePkt (g : PcapGlobal) (fix_timestamp : Bool) (data : List Nat) (pos : Nat) :
    Except PyErr (Phy × Nat) := do
  let (hdr, pos1) ← parsePcapPacketHeader g data pos
  if hdr.incl_len > g.snaplen then .error .otherError
  else do
    let (raw, _) ← readExact data pos1 hdr.incl_len
    if g.network = 127 then do
      let _ ← parseRadiotap raw 0
      -- `phy.len = pkt_header.orig_len - phy.it_len`: AttributeError.
      .error .otherError
    else
      -- `radiotap.RadiotapHeader()`: TypeError.
      .error .otherError

/-! ### peektagged.py -/

/-- The attribute bag filled by the tag loop of
`PeektaggedPacketHeader.__init__` (one slot per recognized tag; a tag
seen twice overwrites, unknown tags are skipped). -/
structure PeekFields where
  len : Option Nat := none
  ts_low : Option Nat := none
  ts_high : Option Nat := none
  flags : Option Nat := none
  channel : Option Nat := none
  rate : Option Nat := none
  signal_level : Option Nat := none
  signal : Option Int := none
  noise_level : Option Nat := none
  noise : Option Int := none
  freq_mhz : Option Nat := none
  ext_flags : Option Nat := none
  caplen : Option Nat := none
  deriving DecidableEq, Repr

/-- The tag loop of `PeektaggedPacketHeader.__init__`: read
`{tag u16 LE, value 4 bytes}` entries until the `0xffff` terminator;
a short read of either part is an `IOError`.  Fuel bounds the recursion
by the remaining bytes; exhaustion coincides with a short read. -/
def peekTagLoop (data : List Nat) : Nat → Nat → PeekFields →
    Except PyErr (PeekFields × Nat)
  | 0, _, _ => .error .ioError
  | fuel + 1, pos, f => do
    let (tag_raw, pos1) ← readExact data pos 2
    let (val_raw, pos2) ← readExact data pos1 4
    let tag := leVal tag_raw
    let v := leVal val_raw
    let f :=
      if tag = 0x00 then { f with len := some v }
      else if tag = 0x01 then { f with ts_low := some v }
      else if tag = 0x02 then { f with ts_high := some v }
      else if tag = 0x03 then { f with flags := some v }
      else if tag = 0x04 then { f with channel := some v }
      else if tag = 0x05 then { f with rate := some v }
      else if tag = 0x06 then { f with signal_level := some v }
      else if tag = 0x07 then { f with signal := some (toSigned32 v) }
      else if tag = 0x08 then { f with noise_level := some v }
      else if tag = 0x09 then { f with noise := some (toSigned32 v) }
      else if tag = 0x0d then { f with freq_mhz := some v }
      else if tag = 0x15 then { f with ext_flags := some v }
      else if tag = 0xffff then { f with caplen := some v }
      else f
    if tag = 0xffff then .ok (f, pos2)
    else peekTagLoop data fuel pos2 f

/-- `PeektaggedPacketHeader` after `__init__`: the surviving attributes
the rest of the module reads. -/
structure PeekHeader where
  len : Option Nat
  caplen : Option Nat
  mcs : Option Nat
  rate : ℚ
  epoch_ts : ℚ
  end_epoch_ts : Option ℚ
  fcs_error : Bool
  signal : Option Int
  noise : Option Int
  freq_mhz : Option Nat
  deriving DecidableEq, Repr

/-- The `hasattr(self, 'ext_flags') and ext_flags & MCS_INDEX_USED`
branch of `PeektaggedPacketHeader.__init__`: either reinterpret the raw
rate tag as an MCS index (defaults: 20 MHz, long GI), or halve it.
Reading an attribute that no tag has set raises `AttributeError`
(a non-IO error). -/
def peekRateDecode (f : PeekFields) : Except PyErr (Option Nat × ℚ) :=
  match f.ext_flags with
  | some ef =>
    if ef / 2 ^ 8 % 2 = 1 then
      match f.rate with
      | none => .error .otherError
      | some rv =>
        match mcs_to_rate rv with
        | none => .error .otherError
        | some r => Except.ok ((some rv : Option Nat), r)
    else
      match f.rate with
      | none => .error .otherError
      | some rv => Except.ok ((none : Option Nat), (rv : ℚ) / 2)
  | none =>
    match f.rate with
    | none => .error .otherError
    | some rv => Except.ok ((none : Option Nat), (rv : ℚ) / 2)

/-- The post-processing tail of `PeektaggedPacketHeader.__init__`
(after the tag loop): MCS-index handling of `rate` via `ext_flags`
bit 0x100, the FILETIME conversion of `(ts_high, ts_low)`, the
last-bit-to-first-bit timestamp shift when `rate > 0`, and the FCS flag. -/
def peekPostProcess (f : PeekFields) : Except PyErr PeekHeader := do
  let (mcs, rate) ← peekRateDecode f
  match f.ts_high, f.ts_low with
  | some th, some tl =>
    let epoch0 := win_ts_to_unix_epoch th tl
    let (epoch_ts, end_epoch_ts) ←
      if 0 < rate then
        match f.len with
        | none => .error .otherError
        | some L =>
          Except.ok (epoch0 - (L : ℚ) * 8 / rate * (1 / 1000000), (some epoch0 : Option ℚ))
      else
        Except.ok (epoch0, (none : Option ℚ))
    match f.flags with
    | none => .error .otherError
    | some fl =>
      .ok { len := f.len, caplen := f.caplen, mcs := mcs, rate := rate,
            epoch_ts := epoch_ts, end_epoch_ts := end_epoch_ts,
            fcs_error := fl / 2 % 2 = 1, signal := f.signal, noise := f.noise,
            freq_mhz := f.freq_mhz }
  | _, _ => .error .otherError

/-- `PeektaggedPacketHeader.__init__` over bytes: tag loop then
post-processing. -/
def parsePeekHeader (data : List Nat) (pos : Nat) : Except PyErr (PeekHeader × Nat) := do
  let (f, pos1) ← peekTagLoop data (data.length + 1) pos {}
  let h ← peekPostProcess f
  .ok (h, pos1)

/-- `PeektaggedPacketHeader.to_phy`: copy the listed attributes into a
`PhyInfo` with `has_fcs = True` (`getattr(..., None)` turns absent
attributes into `None`; `len` becomes the `Int`-valued `Phy.len`,
defaulting to 0 only nominally — the post-processing cannot succeed
without `len` when `rate > 0`). -/
def peekToPhy (h : PeekHeader) : Phy :=
  { signal := h.signal, noise := h.noise, freq_mhz := h.freq_mhz, has_fcs := true,
    fcs_error := some h.fcs_error, epoch_ts := h.epoch_ts,
    end_epoch_ts := h.end_epoch_ts, rate := some h.rate,
    mcs := h.mcs.map (fun m => (m : Int)), len := (h.len.getD 0 : Int),
    caplen := h.caplen.getD 0 }

/-- What the operating system lets `is_packet_trace` see of a path:
either the path is not a regular file, or `open` raises, or the file has
some byte contents. -/
inductive PathKind
  | notFile
  | openError
  | file (bytes : List Nat)

/-- `wltrace.is_packet_trace`: `False` when the path is not a regular
file or cannot be opened; otherwise read up to 4 bytes and test
membership among the `FILE_TYPE_HANDLER` keys.  Total: every exception
source is caught or cannot occur after a successful `open`. -/
def is_packet_trace : PathKind → Bool
  | .notFile => false
  | .openError => false
  | .file bs => decide (bs.take 4 ∈ fileTypeMagics)

/-! ### dot11.py frame-level view and wltrace.py stream engine

The inference passes only look at a handful of frame attributes; a
frame is modelled by those attributes.  `addr2` is optional (control
frames other than Block Ack never set it; `pkt.src` is
`getattr(self, 'addr2', None)`).  `seq_num` is always assigned by
`Dot11Packet.__init__` (possibly to `None`), and `retry` is always a
bool derived from the frame control field.  `ack_pkt` references are
recorded by the emitting engine as the acknowledging frame's counter. -/
structure Pkt where
  counter : Nat
  type : Nat
  subtype : Nat
  addr1 : String
  addr2 : Option String := none
  seq_num : Option Nat := none
  retry : Bool := false
  retry_count : Option Nat := none
  acked : Bool := false
  ack_pkt : Option Nat := none
  phy : Phy := {}
  deriving DecidableEq, Repr

/-- `Dot11Packet.src`, a shortcut to `addr2` (absent attribute:
`None`). -/
def Pkt.src (p : Pkt) : Option String := p.addr2

/-- `Dot11Packet.dest`, a shortcut to `addr1`. -/
def Pkt.dest (p : Pkt) : String := p.addr1

/-- `Dot11Packet.epoch_ts`, a shortcut to `phy.epoch_ts`. -/
def Pkt.epoch_ts (p : Pkt) : ℚ := p.phy.epoch_ts

/-- `Dot11Packet.end_epoch_ts`, a shortcut to `phy.end_epoch_ts`
(raises when the `phy` has no such attribute; see `Phy`). -/
def Pkt.end_epoch_ts (p : Pkt) : Option ℚ := p.phy.end_epoch_ts

/-- `dot11.DOT11_TYPE_MANAGEMENT`. -/
def DOT11_TYPE_MANAGEMENT : Nat := 0

/-- `dot11.DOT11_TYPE_CONTROL`. -/
def DOT11_TYPE_CONTROL : Nat := 1

/-- `dot11.DOT11_TYPE_DATA`. -/
def DOT11_TYPE_DATA : Nat := 2

/-- `dot11.DOT11_SUBTYPE_ACK = 0xd`. -/
def DOT11_SUBTYPE_ACK : Nat := 13

/-- `dot11.is_broadcast`: case-insensitive comparison against the
broadcast MAC. -/
def is_broadcast (mac : String) : Bool :=
  mac.toLower = "ff:ff:ff:ff:ff:ff"

/-- `dot11.is_ack`: control type and ACK subtype. -/
def is_ack (p : Pkt) : Bool :=
  p.type = DOT11_TYPE_CONTROL ∧ p.subtype = DOT11_SUBTYPE_ACK

/-- `WlTrace._infer_acked`, which may raise `AttributeError` when
`pkt.end_epoch_ts` is absent at the moment the ACK-latency comparison is
evaluated (`.error` carries the `(acked, ack_pkt)` assignments made so
far, which is always `(false, none)` there). -/
def inferAckedRaises (pkt : Pkt) (queue : List Pkt) : Except PyErr (Bool × Option Pkt) :=
  -- first assume this pkt is not acked: acked = False, ack_pkt = None
  if (pkt.type = DOT11_TYPE_MANAGEMENT ∨ pkt.type = DOT11_TYPE_DATA) ∧
      ¬ is_broadcast pkt.dest then
    let step2 : Except PyErr (Bool × Option Pkt) :=
      -- look for the next packet from the same station
      .ok (match queue.find? (fun p => p.addr2.isSome ∧ p.src = pkt.src) with
           | some next_pkt =>
             if next_pkt.seq_num ≠ pkt.seq_num then (true, none) else (false, none)
           | none => (false, none))
    match queue with
    | next_pkt :: _ =>
      if is_ack next_pkt ∧ some next_pkt.dest = pkt.src then
        match pkt.end_epoch_ts with
        | none => .error .otherError
        | some te =>
          if next_pkt.epoch_ts - te < 1 / 10000 then .ok (true, some next_pkt)
          else step2
      else step2
    | [] => step2
  else .ok (false, none)

/-- `WlTrace._infer_acked` as observed through the `try/except` of
`WlTrace.next`: an exception leaves the initial `(False, None)`
assignment in place. -/
def inferAcked (pkt : Pkt) (queue : List Pkt) : Bool × Option Pkt :=
  match inferAckedRaises pkt queue with
  | .ok r => r
  | .error _ => (false, none)

/-- Assign `retry_count` to a queued packet. -/
def setRetryCount (p : Pkt) (n : Nat) : Pkt :=
  { p with retry_count := some n }

/-- The scan loop of `WlTrace._infer_retry`: walk the queue; packets
with an `addr2` equal to the emitted packet's `addr2` either receive the
running retry count (when they are retries of the same `seq_num`) or
stop the scan; every other packet is skipped and the scan continues. -/
def inferRetryLoop (pkt : Pkt) : List Pkt → Nat → List Pkt
  | [], _ => []
  | p :: rest, current_retry =>
    if p.addr2.isSome ∧ p.src = pkt.src then
      -- `hasattr(p, 'seq_num')` always holds: `Dot11Packet.__init__`
      -- assigns `seq_num` (possibly `None`) to every parsed frame.
      if ¬ p.retry ∨ p.seq_num ≠ pkt.seq_num then p :: rest
      else setRetryCount p current_retry :: inferRetryLoop pkt rest (current_retry + 1)
    else p :: inferRetryLoop pkt rest current_retry

/-- `WlTrace._infer_retry`: if the packet already carries a
`retry_count`, return immediately; otherwise seed `retry_count` from the
`retry` flag and, for non-broadcast management/data packets, propagate
increasing counts into the look-ahead queue. -/
def inferRetry (pkt : Pkt) (queue : List Pkt) : Pkt × List Pkt :=
  if pkt.retry_count.isSome then (pkt, queue)
  else
    let pkt := { pkt with retry_count := some (if pkt.retry then 1 else 0) }
    let current_retry := (if pkt.retry then 1 else 0) + 1
    if (pkt.type = DOT11_TYPE_MANAGEMENT ∨ pkt.type = DOT11_TYPE_DATA) ∧
        ¬ is_broadcast pkt.dest then
      (pkt, inferRetryLoop pkt queue current_retry)
    else (pkt, queue)

/-! ### The capture `_next` batch readers and the iterator driver

`PcapCapture._next` and `PeektaggedCapture._next` drive
`_read_one_pkt` / the per-packet header parser repeatedly.

The Pcap batch loop is modelled directly over the file bytes, because
in this snapshot its happy path is dead code: `_read_one_pkt` raises
`AttributeError` at `phy.it_len` on every record that parses (see
`pcapReadOnePkt`), and even if a packet were produced, the A-MPDU check
`pkt.phy.ampdu` (pcap.py line 200) would raise `AttributeError` too,
since the radiotap object defines only `_ampdu`.  Neither is an
`IOError`, so `except IOError` does not catch them and they propagate
out of `_next` (and out of `WlTrace.next`, which catches only
`IndexError`).

The peek-tagged per-packet reader is abstracted into the sequence of
outcomes its successive invocations produce: a parsed packet, or a
short read raising `IOError` inside the tagged header.  (A short read
of the MAC payload after a well-formed tag block takes a different path
— a bare `break` — and is a separate outcome.) -/
def pcapNextGoE (g : PcapGlobal) (fx : Bool) (data : List Nat) :
    Nat → Nat → List Pkt → Except PyErr (List Pkt × Option Nat)
  | 0, pos, pkts => .ok (pkts, some pos)
  | _ + 1, pos, pkts =>
    match pcapReadOnePkt g fx data pos with
    | .error .ioError => .ok (pkts, none)
    | .error .otherError => .error .otherError
    | .ok (_, _) =>
      -- unreachable (`pcapReadOnePkt_no_frame`): were a packet built,
      -- `pkt.phy.ampdu` would raise `AttributeError` right here.
      .error .otherError

/-- `PcapCapture._next`: `[]` when the file handle is already closed
(`fh is None`); otherwise run the batch loop over the file bytes —
closing the handle when an `IOError` (a short read inside the envelope)
is raised, propagating every other exception.  The state is the open
file's read position, or `none` once closed. -/
def pcapNextE (g : PcapGlobal) (fx : Bool) (data : List Nat) (fh : Option Nat) (n : Nat) :
    Except PyErr (List Pkt × Option Nat) :=
  match fh with
  | none => .ok ([], none)
  | some pos => pcapNextGoE g fx data n pos []

/-- Outcomes of one peek-tagged per-packet read: a packet, a short read
inside the tagged header (raises `IOError`), or a short read of the MAC
payload (a bare `break` that leaves the handle open). -/
inductive PeekRes
  | pkt (p : Pkt)
  | shortTag
  | shortMac
  deriving Repr

/-- The batch loop of `PeektaggedCapture._next`: `IOError` from the
tagged header closes the handle; a short MAC payload read just ends the
batch. -/
def peekNextGo : Nat → List Pkt → List PeekRes → List Pkt × Option (List PeekRes)
  | 0, pkts, stream => (pkts, some stream)
  | n + 1, pkts, stream =>
    match stream with
    | [] => (pkts, none)
    | .shortTag :: _ => (pkts, none)
    | .shortMac :: rest => (pkts, some rest)
    | .pkt pkt :: rest => peekNextGo n (pkts ++ [pkt]) rest

/-- `PeektaggedCapture._next`. -/
def peekNext (fh : Option (List PeekRes)) (n : Nat) : List Pkt × Option (List PeekRes) :=
  match fh with
  | none => ([], none)
  | some stream => peekNextGo n [] stream

/-- A `WlTrace` object: the look-ahead deque plus the capture state the
abstract `_next` reads from (mirroring the class hierarchy, the capture
state type and its `_next` are parameters). -/
structure TraceSt (σ : Type) where
  pkt_queue : List Pkt
  cap : σ

/-- `WlTrace._fetch`: refill the deque with a batch of up to 1024
packets when fewer than two are queued. -/
def traceFetch {σ : Type} (nextFn : σ → Nat → List Pkt × σ) (st : TraceSt σ) : TraceSt σ :=
  if st.pkt_queue.length < 2 then
    let (pkts, cap2) := nextFn st.cap 1024
    { pkt_queue := st.pkt_queue ++ pkts, cap := cap2 }
  else st

/-- `WlTrace.next`: fetch, pop the head (an empty deque raises
`IndexError`, i.e. `StopIteration`, modelled as `none`), run the two
inference passes with their exceptions swallowed, and yield.  The
`ack_pkt` reference is recorded as the acknowledging frame's counter. -/
def traceNext {σ : Type} (nextFn : σ → Nat → List Pkt × σ) (st : TraceSt σ) :
    Option Pkt × TraceSt σ :=
  let st1 := traceFetch nextFn st
  match st1.pkt_queue with
  | [] => (none, st1)
  | pkt :: rest =>
    let (acked, ack_pkt) := inferAcked pkt rest
    let pkt2 := { pkt with acked := acked, ack_pkt := ack_pkt.map (·.counter) }
    let (pkt3, rest2) := inferRetry pkt2 rest
    (some pkt3, { pkt_queue := rest2, cap := st1.cap })

/-- Iterate `traceNext` `n` times, collecting the yields. -/
def traceRun {σ : Type} (nextFn : σ → Nat → List Pkt × σ) (st : TraceSt σ) :
    Nat → List (Option Pkt) × TraceSt σ
  | 0 => ([], st)
  | n + 1 =>
    let (o, st2) := traceNext nextFn st
    let (os, st3) := traceRun nextFn st2 n
    (o :: os, st3)

/-- `WlTrace._fetch` over a fallible `_next` (the Pcap path, whose
batch loop can raise): an exception from `_next` propagates out of
`_fetch` — nothing in `_fetch` catches it. -/
def traceFetchE {σ : Type} (nextFnE : σ → Nat → Except PyErr (List Pkt × σ))
    (st : TraceSt σ) : Except PyErr (TraceSt σ) :=
  if st.pkt_queue.length < 2 then
    match nextFnE st.cap 1024 with
    | .error e => .error e
    | .ok (pkts, cap2) => .ok ⟨st.pkt_queue ++ pkts, cap2⟩
  else .ok st

/-- `WlTrace.next` over a fallible `_next`: the only exception `next`
catches is the `IndexError` of popping an empty deque (turned into
`StopIteration`, modelled as `none`); whatever `_fetch` raises
propagates to the caller. -/
def traceNextE {σ : Type} (nextFnE : σ → Nat → Except PyErr (List Pkt × σ)) (st : TraceSt σ) :
    Except PyErr (Option Pkt × TraceSt σ) :=
  match traceFetchE nextFnE st with
  | .error e => .error e
  | .ok st1 =>
    match st1.pkt_queue with
    | [] => .ok (none, st1)
    | pkt :: rest =>
      let (acked, ack_pkt) := inferAcked pkt rest
      let pkt2 := { pkt with acked := acked, ack_pkt := ack_pkt.map (·.counter) }
      let (pkt3, rest2) := inferRetry pkt2 rest
      .ok (some pkt3, ⟨rest2, st1.cap⟩)

/-- Iterate `traceNextE` `n` times, collecting the yields; the first
exception aborts the iteration. -/
def traceRunE {σ : Type} (nextFnE : σ → Nat → Except PyErr (List Pkt × σ)) (st : TraceSt σ) :
    Nat → Except PyErr (List (Option Pkt) × TraceSt σ)
  | 0 => .ok ([], st)
  | n + 1 =>
    match traceNextE nextFnE st with
    | .error e => .error e
    | .ok (o, st2) =>
      match traceRunE nextFnE st2 n with
      | .error e => .error e
      | .ok (os, st3) => .ok (o :: os, st3)

/-! ### Specification-side definitions

These are written from the specification's sentences (not from the
source) and are compared with the source embeddings in the refinement
theorems below. -/

/-- The ACK-inference outcome as the specification sentence describes
it: if the next queued frame is an ACK addressed to the emitted frame's
transmitter within 100 μs, `(acked, ack_pkt) = (true, that frame)`;
otherwise, if the next queued frame from the same transmitter exists
and shows a different sequence number, `(true, none)`; otherwise
`(false, none)`.  `te` is the emitted frame's `end_epoch_ts`. -/
def ackSpec (p : Pkt) (te : ℚ) (queue : List Pkt) : Bool × Option Pkt :=
  let fallback : Bool × Option Pkt :=
    match queue.find? (fun r => r.addr2.isSome ∧ r.addr2 = p.addr2) with
    | some r => if r.seq_num ≠ p.seq_num then (true, none) else (false, none)
    | none => (false, none)
  match queue.head? with
  | some q =>
    if is_ack q ∧ p.addr2 = some q.addr1 ∧ q.epoch_ts - te < 1 / 10000 then (true, some q)
    else fallback
  | none => fallback

/-- A queued frame "from the same addr2" as the emitted frame (whose
`addr2` is `src`). -/
def sameSrcB (src : Option String) (q : Pkt) : Bool :=
  q.addr2.isSome ∧ q.addr2 = src

/-- A queued frame that is a retry of the emitted frame's sequence
number `seq`. -/
def retryMatchB (seq : Option Nat) (q : Pkt) : Bool :=
  q.retry ∧ q.seq_num = seq

/-- Positional form of the retry-count propagation described by the
specification: with `k` the number of leading same-transmitter frames
that are retries of the emitted frame's sequence number, the
`rank`-th same-transmitter frame (0-based) receives `base + rank` when
`rank < k`; every other frame is untouched. -/
def specAssign (src : Option String) (base k : Nat) : Nat → List Pkt → List Pkt
  | _, [] => []
  | rank, q :: rest =>
    if sameSrcB src q then
      (if rank < k then setRetryCount q (base + rank) else q) ::
        specAssign src base k (rank + 1) rest
    else q :: specAssign src base k rank rest

/-- The queue after retry propagation, as the specification sentence
describes it: strictly increasing counts `base, base+1, ...` for the
maximal prefix of frames from transmitter `src` that are retries of
sequence number `seq`, stopping at the first frame from `src` that is
not. -/
def retrySpecQueue (src : Option String) (seq : Option Nat) (base : Nat)
    (qs : List Pkt) : List Pkt :=
  specAssign src base ((qs.filter (sameSrcB src)).takeWhile (retryMatchB seq)).length 0 qs

/-- The corrected MCS round trip: `rate_to_mcs` returns the first table
index whose selected column matches, so the duplicated rows 8..11 map
back to their first occurrences 1, 3, 4 and 5. -/
def mcsRoundTripFix (mcs : Nat) : Nat :=
  if mcs = 8 then 1 else if mcs = 9 then 3
  else if mcs = 10 then 4 else if mcs = 11 then 5 else mcs

/-! ### Concrete test vectors -/

/-- A little-endian microsecond Pcap file configuration with
linktype 127. -/
def c1Global : PcapGlobal := ⟨false, false, 0, 65535, 127⟩

/-- A radiotap header carrying the flags and rate fields
(`it_len = 10`, `it_present = 6`, `has_fcs`, rate 12 half-Mbps
= 6 Mbps). -/
def c1RtBytes : List Nat := [0, 0, 10, 0, 6, 0, 0, 0, 0x10, 12]

/-- A Pcap record wrapping `c1RtBytes`: `ts = 100.25 s`,
`incl_len = orig_len = 14`, 4 MAC bytes. -/
def c1Bytes : List Nat :=
  [100, 0, 0, 0, 0x90, 0xD0, 0x03, 0, 14, 0, 0, 0, 14, 0, 0, 0] ++
    c1RtBytes ++ [1, 2, 3, 4]

/-- Same configuration for the caplen claim. -/
def c3Global : PcapGlobal := ⟨false, false, 0, 65535, 127⟩

/-- A minimal 8-byte radiotap header (`it_present = 0`). -/
def c3RtBytes : List Nat := [0, 0, 8, 0, 0, 0, 0, 0]

/-- A Pcap record wrapping `c3RtBytes` with
`incl_len = orig_len = 18`, 10 MAC bytes: the on-air MAC length is 10,
the stored payload is 18 bytes. -/
def c3Bytes : List Nat :=
  [0, 0, 0, 0, 0, 0, 0, 0, 18, 0, 0, 0, 18, 0, 0, 0] ++
    c3RtBytes ++ [5, 5, 5, 5, 5, 5, 5, 5, 5, 5]

/-- A nanosecond-magic file configuration with a one-hour `thiszone`. -/
def c7Global : PcapGlobal := ⟨false, true, 3600, 65535, 127⟩

/-- A record with `ts_sec = 1` and a fractional field of 500000000
(i.e. 0.5 s under the nanosecond magic), minimal radiotap header, 4 MAC
bytes. -/
def c7Bytes : List Nat :=
  [1, 0, 0, 0, 0x00, 0x65, 0xCD, 0x1D, 12, 0, 0, 0, 12, 0, 0, 0] ++
    [0, 0, 8, 0, 0, 0, 0, 0] ++ [9, 9, 9, 9]

/-- A peek-tagged attribute bag for a packet whose raw rate tag is 0
(no `ext_flags`): the decoded rate is 0 Mbps. -/
def c6Fields : PeekFields :=
  { len := some 450, ts_low := some 0, ts_high := some 3000000000,
    flags := some 0, rate := some 0, caplen := some 60 }

/-- A peek-tagged attribute bag with a positive rate (raw 12 → 6 Mbps)
for the amended-claim witness. -/
def c6PosFields : PeekFields :=
  { len := some 100, ts_low := some 500, ts_high := some 3000000000,
    flags := some 2, rate := some 12, caplen := some 60 }

/-- The record header parsed from `c7Bytes` (timestamps written in
closed form: `1 + 0.5` seconds for the nanosecond `datetime`, and
`1 + 500000000/1e6 = 501` for `epoch_ts`). -/
def c7Hdr : PcapPacketHeader :=
  { ts_sec := 1, ts_usec := 500000000, incl_len := 12, orig_len := 12,
    timestamp := 3 / 2, epoch_ts := 501 }

/-- The header decoded from `c6PosFields`: rate `12/2 = 6` Mbps,
last-bit FILETIME timestamp, first-bit `epoch_ts`. -/
def c6PosHeader : PeekHeader :=
  { len := some 100, caplen := some 60, mcs := none, rate := 6,
    epoch_ts := win_ts_to_unix_epoch 3000000000 500 - (100 : ℚ) * 8 / 6 * (1 / 1000000),
    end_epoch_ts := some (win_ts_to_unix_epoch 3000000000 500),
    fcs_error := true, signal := none, noise := none, freq_mhz := none }

/-- A data frame addressed to a unicast receiver, with transmitter
`aa:aa:aa:aa:aa:aa`, sequence number 5 and known end-of-frame time. -/
def c4p : Pkt :=
  { counter := 1, type := 2, subtype := 8, addr1 := "bb:bb:bb:bb:bb:bb",
    addr2 := some "aa:aa:aa:aa:aa:aa", seq_num := some 5,
    phy := { epoch_ts := 10, end_epoch_ts := some (10 + 1 / 100000) } }

/-- The ACK for `c4p`, arriving 20 μs after its last bit. -/
def c4q : Pkt :=
  { counter := 2, type := 1, subtype := 13, addr1 := "aa:aa:aa:aa:aa:aa",
    phy := { epoch_ts := 10 + 1 / 100000 + 2 / 100000 } }

/-- A broadcast data frame (first transmission) from
`aa:aa:aa:aa:aa:aa` with sequence number 7. -/
def c5p : Pkt :=
  { counter := 1, type := 2, subtype := 0, addr1 := "ff:ff:ff:ff:ff:ff",
    addr2 := some "aa:aa:aa:aa:aa:aa", seq_num := some 7, retry := false }

/-- A queued retry of `c5p` (same transmitter, same sequence number,
retry flag set). -/
def c5q : Pkt :=
  { counter := 2, type := 2, subtype := 0, addr1 := "ff:ff:ff:ff:ff:ff",
    addr2 := some "aa:aa:aa:aa:aa:aa", seq_num := some 7, retry := true }

/-- A unicast data frame used for the amended retry-claim witness. -/
def c5wp : Pkt :=
  { counter := 3, type := 2, subtype := 0, addr1 := "cc:cc:cc:cc:cc:cc",
    addr2 := some "aa:aa:aa:aa:aa:aa", seq_num := some 9, retry := true }

/-- A queued retry of `c5wp`. -/
def c5wq : Pkt :=
  { counter := 4, type := 2, subtype := 0, addr1 := "cc:cc:cc:cc:cc:cc",
    addr2 := some "aa:aa:aa:aa:aa:aa", seq_num := some 9, retry := true }

/-- A frame that already carries a `retry_count` (assigned while it sat
in the look-ahead queue). -/
def c9p : Pkt :=
  { counter := 6, type := 2, subtype := 8, addr1 := "bb:bb:bb:bb:bb:bb",
    addr2 := some "aa:aa:aa:aa:aa:aa", seq_num := some 11, retry := true,
    retry_count := some 2 }

/-- A little-endian microsecond linktype-127 configuration for the
mid-stream short-read claim. -/
def c8Global : PcapGlobal := ⟨false, false, 0, 65535, 127⟩

/-- A well-formed linktype-127 Pcap record (16-byte record header with
`incl_len = orig_len = 10`, the minimal radiotap header `c3RtBytes`,
2 MAC bytes) followed by a truncated second record: the first record
parses all the way to the `phy.it_len` read, so the batch loop raises
before the short read is ever reached. -/
def c8Bytes : List Nat :=
  [0, 0, 0, 0, 0, 0, 0, 0, 10, 0, 0, 0, 10, 0, 0, 0] ++
    c3RtBytes ++ [0xAA, 0xBB] ++ [1, 2, 3]

/-- A frame read successfully before a mid-stream short read
(peek-tagged). -/
def c8q : Pkt :=
  { counter := 1, type := 2, subtype := 0, addr1 := "ff:ff:ff:ff:ff:ff",
    addr2 := some "aa:aa:aa:aa:aa:aa", seq_num := some 2 }

/-! ## Theorems -/

/-- C1: the claim asserts `end_epoch_ts` is present (with
`end_epoch_ts - epoch_ts` equal to the air time) for every frame with
positive rate on the Pcap/Radiotap path as well; but `_read_one_pkt`
never gets far enough to assign any `end_epoch_ts`.  At a record whose
radiotap rate decodes to 6 Mbps (> 0), the read raises an uncaught
non-IO error (`AttributeError` at `phy.it_len`, pcap.py line 173: the
radiotap attribute is `_it_len`) instead of producing a phy at all —
contradicting the claim (and the repository's own `test_pcap`, which
reads `pkt.phy.end_epoch_ts` from a radiotap trace). -/
theorem C1_pcap_end_epoch_ts_missing :
    (parseRadiotap c1RtBytes 0).map (fun rp => rp.1.rate) = .ok (some 6) ∧ (0 : ℚ) < 6 ∧
      pcapReadOnePkt c1Global false c1Bytes 0 = .error .otherError :=
  ⟨by with_unfolding_all rfl, by norm_num, by with_unfolding_all rfl⟩

/-- C3: the claim asserts `phy.caplen = incl_len - it_len` and
`caplen ≤ len`; the source (pcap.py line 179) would assign
`phy.caplen = incl_len` without subtracting the radiotap length, but in
this snapshot even that line is unreachable: at a linktype-127 record
with `incl_len = orig_len = 18` and a radiotap header of `it_len = 8`,
the read raises the uncaught `AttributeError` of `phy.it_len`
(pcap.py line 173) before any `caplen` is assigned, so no phy with
`caplen = 10 = incl_len - it_len` is ever produced — contradicting the
claim (and the repository's own `test_pcap`, which expects
`caplen = len = 117` from a radiotap trace). -/
theorem C3_caplen_not_reduced_by_it_len :
    (parsePcapPacketHeader c3Global c3Bytes 0).map (fun pr => (pr.1.incl_len, pr.1.orig_len))
      = .ok (18, 18) ∧
    (parseRadiotap c3RtBytes 0).map (fun rp => rp.1.it_len) = .ok 8 ∧
    pcapReadOnePkt c3Global false c3Bytes 0 = .error .otherError :=
  ⟨by with_unfolding_all rfl, by with_unfolding_all rfl, by with_unfolding_all rfl⟩

/-- C7, counterexample: for a nanosecond-magic record with
`ts_sec = 1`, fractional field `500000000` and `thiszone = 3600`, the
claim predicts `epoch_ts = 1 + 500000000/1e9 + 3600 = 3601.5`, but the
code computes `ts_sec + frac/1e6` with the microsecond divisor and
without `thiszone`, yielding `501`. -/
theorem C7_cex_nanosecond_divisor_and_thiszone :
    (parsePcapPacketHeader c7Global c7Bytes 0).map (fun pr => pr.1.epoch_ts) = .ok 501 ∧
      (501 : ℚ) ≠ 1 + 500000000 / 1000000000 + 3600 :=
  ⟨by with_unfolding_all rfl, by norm_num⟩

/-- C6, counterexample: for a peek-tagged packet whose raw rate tag is
0, the claim predicts `end_epoch_ts` is still the converted FILETIME
timestamp; the code instead assigns `end_epoch_ts = None` whenever
`rate ≤ 0`. -/
theorem C6_cex_zero_rate_end_epoch_ts_none :
    (peekPostProcess c6Fields).map (fun h => h.end_epoch_ts) = .ok none ∧
      (none : Option ℚ) ≠ some (win_ts_to_unix_epoch 3000000000 0) :=
  ⟨by with_unfolding_all rfl, by simp⟩

/-- C2, counterexample: the MCS round trip is not the identity on the
whole table: rows 8..11 duplicate rows 1, 3, 4, 5, and `rate_to_mcs`
returns the first match, so `rate_to_mcs(mcs_to_rate(8, 20, long)) = 1`,
not 8. -/
theorem C2_cex_mcs8_roundtrip :
    (mcs_to_rate 8 20 true).bind (fun r => rate_to_mcs r 20 true) = some 1 ∧
      (mcs_to_rate 8 20 true).bind (fun r => rate_to_mcs r 20 true) ≠ some 8 := by
  have h1 : (mcs_to_rate 8 20 true).bind (fun r => rate_to_mcs r 20 true) = some 1 := by
    with_unfolding_all rfl
  refine ⟨h1, ?_⟩
  rw [h1]
  simp

/-- C10: `is_packet_trace` is total — it returns `false` for paths that
are not regular files or cannot be opened, and for readable files it
returns `true` exactly when the first four bytes are one of the five
known magics (the four Pcap magics in their on-disk byte order, and
`'\x7fver'`). -/
theorem C10_is_packet_trace_magic :
    ∀ pk, is_packet_trace pk =
      match pk with
      | .file bs => decide (bs.take 4 ∈
          ([[0xd4, 0xc3, 0xb2, 0xa1], [0xa1, 0xb2, 0xc3, 0xd4], [0x4d, 0x3c, 0xb2, 0xa1],
            [0xa1, 0xb2, 0x3c, 0x4d], [0x7f, 0x76, 0x65, 0x72]] : List (List Nat)))
      | .notFile => false
      | .openError => false := by
  intro pk
  cases pk <;> rfl

/-- C9: a frame that already carries a `retry_count` is left completely
unchanged by the retry-inference pass at its own emission (the pass
returns before touching the frame or the queue). -/
theorem C9_retry_count_write_once :
    ∀ (p : Pkt) (qs : List Pkt) (n : Nat), p.retry_count = some n →
      inferRetry p qs = (p, qs) := by
  intro p qs n h
  simp [inferRetry, h]

/-- Witness for C9 at a concrete frame with `retry_count = 2`. -/
theorem C9_retry_count_write_once_witness :
    c9p.retry_count = some 2 ∧ inferRetry c9p [c5q] = (c9p, [c5q]) :=
  ⟨rfl, C9_retry_count_write_once c9p [c5q] 2 rfl⟩

/-- `Except.bind` on an error propagates the error (`do` reduction
helper). -/
theorem except_bind_error {ε α β : Type} (e : ε) (f : α → Except ε β) :
    (Except.error e >>= f) = Except.error e :=
  rfl

/-- `Except.bind` on a success applies the continuation (`do` reduction
helper). -/
theorem except_bind_ok {ε α β : Type} (a : α) (f : α → Except ε β) :
    (Except.ok a >>= f) = f a :=
  rfl

/-- In this snapshot `_read_one_pkt` can never return a packet: every
branch that survives the record-header parse, the snaplen check and the
payload read ends in an uncaught non-IO exception — `AttributeError` at
`phy.it_len` (pcap.py line 173) on linktype 127, `TypeError` on the
argument-less `RadiotapHeader()` call otherwise. -/
theorem pcapReadOnePkt_no_frame :
    ∀ (g : PcapGlobal) (fx : Bool) (data : List Nat) (pos : Nat) (r : Phy × Nat),
      pcapReadOnePkt g fx data pos ≠ .ok r := by
  intro g fx data pos r hok
  unfold pcapReadOnePkt at hok
  rcases h1 : parsePcapPacketHeader g data pos with e | ⟨hdr, pos1⟩ <;> rw [h1] at hok <;>
    simp only [except_bind_error, except_bind_ok] at hok
  · exact nomatch hok
  · split at hok
    · exact nomatch hok
    · rcases h2 : readExact data pos1 hdr.incl_len with e2 | ⟨raw, p2⟩ <;> rw [h2] at hok <;>
        simp only [except_bind_error, except_bind_ok] at hok
      · exact nomatch hok
      · split at hok
        · rcases h3 : parseRadiotap raw 0 with e3 | rt <;> rw [h3] at hok <;>
            simp only [except_bind_error, except_bind_ok] at hok
          · exact nomatch hok
          · exact nomatch hok
        · exact nomatch hok

/-- A closed trace (capture state fixed with empty batches) yields
`none` forever under the fallible driver. -/
theorem traceRunE_closed_nil {σ : Type} (nextFnE : σ → Nat → Except PyErr (List Pkt × σ))
    (c : σ) (hc : nextFnE c 1024 = .ok ([], c)) :
    ∀ (m : Nat), traceRunE nextFnE ⟨[], c⟩ m = .ok (List.replicate m none, ⟨[], c⟩) := by
  intro m
  induction m with
  | zero => rfl
  | succ n ih =>
    have hfetch : traceFetchE nextFnE ⟨[], c⟩ = .ok ⟨[], c⟩ := by
      unfold traceFetchE
      rw [if_pos (by simp)]
      simp [hc]
    have hnext : traceNextE nextFnE ⟨[], c⟩ = .ok (none, ⟨[], c⟩) := by
      unfold traceNextE
      rw [hfetch]
    unfold traceRunE
    rw [hnext]
    simp only []
    rw [ih]
    simp [List.replicate_succ]

/-- C7, amended: for every successfully parsed Pcap record header,
`epoch_ts = ts_sec + frac/1e6` — with the *microsecond* divisor even
under a nanosecond magic, and with no `thiszone` contribution (the 1e9
divisor is applied only to the derived `datetime` field `timestamp`);
the frame-level copy `phy.epoch_ts = pkt_header.epoch_ts`
(pcap.py line 182) is dead code in this snapshot, since `_read_one_pkt`
raises before reaching it on every input. -/
theorem C7_epoch_ts_formula :
    ∀ (g : PcapGlobal) (data : List Nat) (pos : Nat) (h : PcapPacketHeader) (rest : Nat),
      parsePcapPacketHeader g data pos = .ok (h, rest) →
      h.epoch_ts = (h.ts_sec : ℚ) + (h.ts_usec : ℚ) / 1000000 ∧
      h.timestamp = (h.ts_sec : ℚ) + (h.ts_usec : ℚ) /
        (if g.nano_ts then 1000000000 else 1000000) ∧
      ∀ (fx : Bool) (r : Phy × Nat), pcapReadOnePkt g fx data pos ≠ .ok r := by
  intro g data pos h rest hok
  refine ⟨?_, ?_, fun fx r => pcapReadOnePkt_no_frame g fx data pos r⟩ <;>
    unfold parsePcapPacketHeader at hok <;>
    rcases hre : readExact data pos 16 with e | ⟨raw, pos1⟩ <;> rw [hre] at hok <;>
      simp only [except_bind_error, except_bind_ok] at hok
  · exact nomatch hok
  · injection hok with hok
    injection hok with hh hrest
    rw [← hh]
  · exact nomatch hok
  · injection hok with hok
    injection hok with hh hrest
    rw [← hh]

/-- Witness for C7 at the concrete nanosecond-magic record. -/
theorem C7_epoch_ts_formula_witness :
    parsePcapPacketHeader c7Global c7Bytes 0 = .ok (c7Hdr, 16) ∧
      c7Hdr.epoch_ts = (c7Hdr.ts_sec : ℚ) + (c7Hdr.ts_usec : ℚ) / 1000000 ∧
      pcapReadOnePkt c7Global false c7Bytes 0 ≠ .ok ({}, 0) :=
  ⟨by with_unfolding_all rfl,
   (C7_epoch_ts_formula c7Global c7Bytes 0 c7Hdr 16 (by with_unfolding_all rfl)).1,
   (C7_epoch_ts_formula c7Global c7Bytes 0 c7Hdr 16
      (by with_unfolding_all rfl)).2.2 false ({}, 0)⟩

/-- C6, amended: for every peek-tagged packet header that decodes
successfully, when `rate > 0` the code sets `end_epoch_ts` to the
converted FILETIME timestamp `high*(2^32/1e9) + low/1e9 - 11644473600`
and `epoch_ts` to that value minus `len*8/rate*1e-6`; but when
`rate ≤ 0`, `end_epoch_ts` is `None` (not the converted timestamp) and
`epoch_ts` stays the last-bit timestamp. -/
theorem C6_peek_timestamps :
    ∀ (f : PeekFields) (th tl : Nat) (h : PeekHeader),
      f.ts_high = some th → f.ts_low = some tl →
      peekPostProcess f = .ok h →
      (0 < h.rate →
        h.end_epoch_ts = some (win_ts_to_unix_epoch th tl) ∧
        ∃ L, f.len = some L ∧
          h.epoch_ts = win_ts_to_unix_epoch th tl - (L : ℚ) * 8 / h.rate * (1 / 1000000)) ∧
      (¬ 0 < h.rate →
        h.end_epoch_ts = none ∧ h.epoch_ts = win_ts_to_unix_epoch th tl) := by
  intro f th tl h hth htl hok
  unfold peekPostProcess at hok
  rcases hrd : peekRateDecode f with e | ⟨mcs, rate⟩ <;> rw [hrd] at hok <;>
    simp only [except_bind_error, except_bind_ok] at hok
  · exact nomatch hok
  · split at hok
    · rename_i th' tl' heq1 heq2
      rw [hth] at heq1
      rw [htl] at heq2
      injection heq1 with e1
      injection heq2 with e2
      subst e1
      subst e2
      split at hok <;> rename_i hrate
      · rcases hL : f.len with _ | L <;> rw [hL] at hok <;>
          simp only [except_bind_error, except_bind_ok] at hok
        · exact nomatch hok
        · rcases hfl : f.flags with _ | fl <;> rw [hfl] at hok
          · exact nomatch hok
          · injection hok with hok
            subst hok
            exact ⟨fun _ => ⟨rfl, L, rfl, rfl⟩, fun hneg => absurd hrate hneg⟩
      · rcases hfl : f.flags with _ | fl <;> rw [hfl] at hok
        · exact nomatch hok
        · injection hok with hok
          subst hok
          exact ⟨fun hpos => absurd hpos hrate, fun _ => ⟨rfl, rfl⟩⟩
    · rename_i hcontra
      exact absurd hth (by intro hth2; exact hcontra th tl hth2 htl)

/-- C2, amended: the round trip `rate_to_mcs ∘ mcs_to_rate` over the
whole table returns the *first* MCS index carrying the selected rate:
the identity except on the duplicated rows, where 8 ↦ 1, 9 ↦ 3,
10 ↦ 4 and 11 ↦ 5. -/
theorem C2_mcs_roundtrip_first_match :
    ∀ (mcs bw : Nat) (gi : Bool), mcs < 16 → (bw = 20 ∨ bw = 40 ∨ bw = 80 ∨ bw = 160) →
      (mcs_to_rate mcs bw gi).bind (fun r => rate_to_mcs r bw gi)
        = some (mcsRoundTripFix mcs) := by
  have hall : ∀ m ∈ List.range 16, ∀ b ∈ [20, 40, 80, 160], ∀ g ∈ [true, false],
      (mcs_to_rate m b g).bind (fun r => rate_to_mcs r b g) = some (mcsRoundTripFix m) := by
    with_unfolding_all decide
  intro mcs bw gi hm hbw
  refine hall mcs (List.mem_range.mpr hm) bw ?_ gi ?_
  · rcases hbw with h | h | h | h <;> simp [h]
  · cases gi <;> simp

/-- Witness for the amended C2 at `(9, 20, long GI)`: the 78 Mbps rate
of MCS 9 maps back to MCS 3. -/
theorem C2_mcs_roundtrip_first_match_witness :
    (9 : Nat) < 16 ∧
      (mcs_to_rate 9 20 true).bind (fun r => rate_to_mcs r 20 true)
        = some (mcsRoundTripFix 9) :=
  ⟨by norm_num, C2_mcs_roundtrip_first_match 9 20 true (by norm_num) (Or.inl rfl)⟩

/-- C4: for every emitted frame of type Management or Data with a
non-broadcast receiver and a known end-of-frame time, the ACK inference
computes exactly what the specification describes: the head of the
queue as `ack_pkt` when it is a matching ACK within 100 μs, else
`acked` alone when the next same-transmitter frame moved to another
sequence number, else nothing. -/
theorem C4_infer_acked :
    ∀ (p : Pkt) (queue : List Pkt) (te : ℚ),
      p.end_epoch_ts = some te →
      (p.type = DOT11_TYPE_MANAGEMENT ∨ p.type = DOT11_TYPE_DATA) →
      is_broadcast p.dest = false →
      inferAcked p queue = ackSpec p te queue := by
  intro p queue te hte hty hbc
  have hkey : inferAckedRaises p queue = .ok (ackSpec p te queue) := by
    unfold inferAckedRaises ackSpec
    rw [if_pos ⟨hty, by simp [hbc]⟩]
    cases queue with
    | nil => rfl
    | cons q rest =>
      simp only [List.head?]
      by_cases h1 : is_ack q ∧ some (Pkt.dest q) = Pkt.src p
      · rw [if_pos h1, hte]
        simp only []
        by_cases h2 : Pkt.epoch_ts q - te < 1 / 10000
        · rw [if_pos h2]
          have hs : is_ack q ∧ p.addr2 = some q.addr1 ∧ Pkt.epoch_ts q - te < 1 / 10000 :=
            ⟨h1.1, h1.2.symm, h2⟩
          rw [if_pos hs]
        · rw [if_neg h2]
          have hs : ¬(is_ack q ∧ p.addr2 = some q.addr1 ∧ Pkt.epoch_ts q - te < 1 / 10000) :=
            fun hc => h2 hc.2.2
          rw [if_neg hs]
          rfl
      · rw [if_neg h1]
        have hs : ¬(is_ack q ∧ p.addr2 = some q.addr1 ∧ Pkt.epoch_ts q - te < 1 / 10000) :=
          fun hc => h1 ⟨hc.1, hc.2.1.symm⟩
        rw [if_neg hs]
        rfl
  unfold inferAcked
  rw [hkey]

/-- Witness for C4 at a concrete data frame followed by its ACK. -/
theorem C4_infer_acked_witness :
    c4p.end_epoch_ts = some (10 + 1 / 100000) ∧
      inferAcked c4p [c4q] = ackSpec c4p (10 + 1 / 100000) [c4q] :=
  ⟨rfl, C4_infer_acked c4p [c4q] (10 + 1 / 100000) rfl (Or.inr rfl)
    (by with_unfolding_all rfl)⟩

/-- C5, counterexample: the claim omits the management/data and
non-broadcast guard of `_infer_retry`.  For a *broadcast* data frame
whose queue holds a retry of the same sequence number from the same
transmitter, the claim predicts the queued frame receives
`retry_count = 1`, but the code leaves it unset. -/
theorem C5_cex_broadcast_no_propagation :
    ((inferRetry c5p [c5q]).2.map Pkt.retry_count) = [none] ∧
      ((inferRetry c5p [c5q]).2.map Pkt.retry_count) ≠ [some 1] := by
  have h : (inferRetry c5p [c5q]).2.map Pkt.retry_count = [none] := by
    with_unfolding_all rfl
  refine ⟨h, ?_⟩
  rw [h]
  simp

/-- Once the rank has reached `k`, the positional assignment touches
nothing. -/
theorem specAssign_stop (src : Option String) (base k : Nat) :
    ∀ (qs : List Pkt) (rank : Nat), k ≤ rank → specAssign src base k rank qs = qs := by
  intro qs
  induction qs with
  | nil => intro rank _; rfl
  | cons q rest ih =>
    intro rank hk
    unfold specAssign
    by_cases hs : sameSrcB src q = true
    · rw [if_pos hs, if_neg (by omega : ¬ rank < k), ih (rank + 1) (by omega)]
    · rw [if_neg hs, ih rank hk]

/-- Shifting the base by one is the same as shifting the cut-off and the
rank. -/
theorem specAssign_shift (src : Option String) (base k : Nat) :
    ∀ (qs : List Pkt) (rank : Nat),
      specAssign src (base + 1) k rank qs = specAssign src base (k + 1) (rank + 1) qs := by
  intro qs
  induction qs with
  | nil => intro rank; rfl
  | cons q rest ih =>
    intro rank
    unfold specAssign
    by_cases hs : sameSrcB src q = true
    · rw [if_pos hs, if_pos hs, ih (rank + 1)]
      congr 1
      by_cases hr : rank < k
      · rw [if_pos hr, if_pos (by omega : rank + 1 < k + 1)]
        congr 1
        omega
      · rw [if_neg hr, if_neg (by omega : ¬ rank + 1 < k + 1)]
    · rw [if_neg hs, if_neg hs, ih rank]

/-- The scan loop of `_infer_retry` computes exactly the positional
assignment described by the specification. -/
theorem inferRetryLoop_eq_spec (pkt : Pkt) :
    ∀ (qs : List Pkt) (base : Nat),
      inferRetryLoop pkt qs base = retrySpecQueue pkt.addr2 pkt.seq_num base qs := by
  intro qs
  induction qs with
  | nil => intro base; rfl
  | cons q rest ih =>
    intro base
    unfold inferRetryLoop retrySpecQueue
    by_cases hs : sameSrcB pkt.addr2 q = true
    · have hs' : q.addr2.isSome ∧ q.src = pkt.src := by
        have := of_decide_eq_true hs
        exact this
      rw [if_pos hs']
      rw [List.filter_cons_of_pos hs]
      by_cases hm : retryMatchB pkt.seq_num q = true
      · have hm' : ¬(¬ q.retry ∨ q.seq_num ≠ pkt.seq_num) := by
          have := of_decide_eq_true hm
          intro hc
          rcases hc with hc | hc
          · exact hc (by simp [this.1])
          · exact hc this.2
        rw [if_neg hm']
        rw [List.takeWhile_cons_of_pos hm]
        simp only [List.length_cons]
        unfold specAssign
        rw [if_pos hs, if_pos (by omega : 0 < (List.takeWhile (retryMatchB pkt.seq_num)
          (List.filter (sameSrcB pkt.addr2) rest)).length + 1)]
        rw [ih (base + 1)]
        unfold retrySpecQueue
        rw [specAssign_shift]
        simp
      · have hm' : ¬ q.retry ∨ q.seq_num ≠ pkt.seq_num := by
          rcases Decidable.em (q.retry = true) with hr | hr
          · right
            intro hc
            exact hm (by simp [retryMatchB, hr, hc])
          · left
            simp [hr]
        rw [if_pos hm']
        rw [List.takeWhile_cons_of_neg hm]
        simp only [List.length_nil]
        unfold specAssign
        rw [if_pos hs, if_neg (by omega : ¬ (0 : Nat) < 0)]
        rw [specAssign_stop _ _ _ _ 1 (by omega)]
    · have hs' : ¬(q.addr2.isSome ∧ q.src = pkt.src) := fun hc => hs (decide_eq_true hc)
      rw [if_neg hs']
      rw [List.filter_cons_of_neg hs]
      unfold specAssign
      rw [if_neg hs]
      rw [ih base]
      rfl

/-- C5, amended: for a frame without a prior `retry_count`, the pass
seeds `retry_count` from the `retry` flag (0 for a first transmission,
1 otherwise); the propagation of increasing counts
`retry_count+1, retry_count+2, ...` into the queue — over frames from
the same `addr2` that are retries of the same `seq_num`, stopping at
the first same-`addr2` frame that is not — happens only when the frame
is of type Management or Data with a non-broadcast receiver; otherwise
the queue is untouched. -/
theorem C5_infer_retry_guarded :
    ∀ (p : Pkt) (qs : List Pkt),
      p.retry_count = none →
      inferRetry p qs =
        ({ p with retry_count := some (if p.retry then 1 else 0) },
         if (p.type = DOT11_TYPE_MANAGEMENT ∨ p.type = DOT11_TYPE_DATA) ∧
             ¬ is_broadcast p.dest
         then retrySpecQueue p.addr2 p.seq_num ((if p.retry then 1 else 0) + 1) qs
         else qs) := by
  intro p qs h
  unfold inferRetry
  rw [h]
  simp only [Option.isSome_none, Bool.false_eq_true, if_false, Pkt.dest]
  by_cases hg : (p.type = DOT11_TYPE_MANAGEMENT ∨ p.type = DOT11_TYPE_DATA) ∧
      ¬ is_broadcast p.addr1 = true
  · rw [if_pos hg, if_pos hg]
    rw [inferRetryLoop_eq_spec]
  · rw [if_neg hg, if_neg hg]

/-- Witness for the amended C5 at a concrete unicast data frame with a
queued retry. -/
theorem C5_infer_retry_guarded_witness :
    c5wp.retry_count = none ∧
      inferRetry c5wp [c5wq] =
        ({ c5wp with retry_count := some (if c5wp.retry then 1 else 0) },
         if (c5wp.type = DOT11_TYPE_MANAGEMENT ∨ c5wp.type = DOT11_TYPE_DATA) ∧
             ¬ is_broadcast c5wp.dest
         then retrySpecQueue c5wp.addr2 c5wp.seq_num ((if c5wp.retry then 1 else 0) + 1) [c5wq]
         else [c5wq]) :=
  ⟨rfl, C5_infer_retry_guarded c5wp [c5wq] rfl⟩

/-- Witness for C6 at a concrete header with rate 6 Mbps. -/
theorem C6_peek_timestamps_witness :
    peekPostProcess c6PosFields = .ok c6PosHeader ∧
      (0 < c6PosHeader.rate →
        c6PosHeader.end_epoch_ts = some (win_ts_to_unix_epoch 3000000000 500) ∧
        ∃ L, c6PosFields.len = some L ∧
          c6PosHeader.epoch_ts
            = win_ts_to_unix_epoch 3000000000 500 - (L : ℚ) * 8 / c6PosHeader.rate *
                (1 / 1000000)) :=
  ⟨by with_unfolding_all rfl,
   (C6_peek_timestamps c6PosFields 3000000000 500 c6PosHeader rfl rfl
      (by with_unfolding_all rfl)).1⟩

/-- The retry scan only rewrites `retry_count`; frame identities
(counters) are unchanged. -/
theorem inferRetryLoop_map_counter (pkt : Pkt) :
    ∀ (qs : List Pkt) (c : Nat),
      (inferRetryLoop pkt qs c).map Pkt.counter = qs.map Pkt.counter := by
  intro qs
  induction qs with
  | nil => intro c; rfl
  | cons q rest ih =>
    intro c
    unfold inferRetryLoop
    by_cases h1 : q.addr2.isSome ∧ q.src = pkt.src
    · rw [if_pos h1]
      by_cases h2 : ¬ q.retry ∨ q.seq_num ≠ pkt.seq_num
      · rw [if_pos h2]
      · rw [if_neg h2]
        simp [setRetryCount, ih]
    · rw [if_neg h1]
      simp [ih]

/-- The retry pass does not change the emitted frame's counter. -/
theorem inferRetry_fst_counter (p : Pkt) (qs : List Pkt) :
    ((inferRetry p qs).1).counter = p.counter := by
  unfold inferRetry
  by_cases h : p.retry_count.isSome = true
  · rw [if_pos h]
  · rw [if_neg h]
    split <;> simp only [] <;> split <;> rfl

/-- The retry pass does not change the queue's frame counters. -/
theorem inferRetry_map_counter (p : Pkt) (qs : List Pkt) :
    ((inferRetry p qs).2).map Pkt.counter = qs.map Pkt.counter := by
  unfold inferRetry
  by_cases h : p.retry_count.isSome = true
  · rw [if_pos h]
  · rw [if_neg h]
    split <;> simp only [] <;> split
    · exact inferRetryLoop_map_counter _ qs _
    · rfl
    · exact inferRetryLoop_map_counter _ qs _
    · rfl

/-- Unfolding one iteration of `traceRun`. -/
theorem traceRun_succ {σ : Type} (nextFn : σ → Nat → List Pkt × σ) (st : TraceSt σ) (n : Nat) :
    traceRun nextFn st (n + 1)
      = ((traceNext nextFn st).1 :: (traceRun nextFn (traceNext nextFn st).2 n).1,
         (traceRun nextFn (traceNext nextFn st).2 n).2) := by
  rcases h1 : traceNext nextFn st with ⟨o, st2⟩
  rcases h2 : traceRun nextFn st2 n with ⟨os, st3⟩
  simp only [h1, h2]
  unfold traceRun
  rw [h1]
  simp only []
  rw [h2]

/-- `_fetch` on an absorbing capture state is the identity. -/
theorem traceFetch_closed {σ : Type} (nextFn : σ → Nat → List Pkt × σ) (c : σ)
    (hc : nextFn c 1024 = ([], c)) (qs : List Pkt) :
    traceFetch nextFn ⟨qs, c⟩ = ⟨qs, c⟩ := by
  unfold traceFetch
  split
  · simp [hc]
  · rfl

/-- `next` on an empty, absorbing trace yields `none` and stays put. -/
theorem traceNext_closed_nil {σ : Type} (nextFn : σ → Nat → List Pkt × σ) (c : σ)
    (hc : nextFn c 1024 = ([], c)) :
    traceNext nextFn ⟨[], c⟩ = (none, ⟨[], c⟩) := by
  unfold traceNext
  rw [traceFetch_closed nextFn c hc]

/-- `next` on a non-empty absorbing trace pops the head, decorates it,
and keeps the capture state. -/
theorem traceNext_closed_cons {σ : Type} (nextFn : σ → Nat → List Pkt × σ) (c : σ)
    (hc : nextFn c 1024 = ([], c)) (p : Pkt) (rest : List Pkt) (acked : Bool)
    (ackp : Option Pkt) (pkt3 : Pkt) (rest2 : List Pkt)
    (hia : inferAcked p rest = (acked, ackp))
    (hir : inferRetry { p with acked := acked, ack_pkt := ackp.map (·.counter) } rest
      = (pkt3, rest2)) :
    traceNext nextFn ⟨p :: rest, c⟩ = (some pkt3, ⟨rest2, c⟩) := by
  unfold traceNext
  rw [traceFetch_closed nextFn c hc]
  simp only []
  rw [hia]
  simp only []
  rw [hir]

/-- Draining a closed trace: once the capture state is absorbing
(`_next` on it yields no packets and leaves it unchanged), iterating
`next` yields the queued frames in order and then `none` forever, and
the capture state never changes. -/
theorem traceRun_closed {σ : Type} (nextFn : σ → Nat → List Pkt × σ) (c : σ)
    (hc : nextFn c 1024 = ([], c)) :
    ∀ (m : Nat) (qs : List Pkt),
      ((traceRun nextFn ⟨qs, c⟩ m).1.map (Option.map Pkt.counter)
        = ((qs.map Pkt.counter).take m).map some ++ List.replicate (m - qs.length) none)
      ∧ (traceRun nextFn ⟨qs, c⟩ m).2.cap = c := by
  intro m
  induction m with
  | zero => intro qs; simp [traceRun]
  | succ n ih =>
    intro qs
    rw [traceRun_succ]
    cases qs with
    | nil =>
      rw [traceNext_closed_nil nextFn c hc]
      have hi := ih []
      simp only [List.map_nil, List.take_nil, List.length_nil, Nat.sub_zero] at hi ⊢
      refine ⟨?_, hi.2⟩
      simp [hi.1, List.replicate_succ]
    | cons p rest =>
      rcases hia : inferAcked p rest with ⟨acked, ackp⟩
      rcases hir : inferRetry { p with acked := acked, ack_pkt := ackp.map (·.counter) } rest
        with ⟨pkt3, rest2⟩
      rw [traceNext_closed_cons nextFn c hc p rest acked ackp pkt3 rest2 hia hir]
      simp only []
      have hc3 : pkt3.counter = p.counter := by
        have h0 := inferRetry_fst_counter
          { p with acked := acked, ack_pkt := ackp.map (·.counter) } rest
        rw [hir] at h0
        exact h0
      have hcr : rest2.map Pkt.counter = rest.map Pkt.counter := by
        have h0 := inferRetry_map_counter
          { p with acked := acked, ack_pkt := ackp.map (·.counter) } rest
        rw [hir] at h0
        exact h0
      have hlr : rest2.length = rest.length := by
        have h2 : (rest2.map Pkt.counter).length = (rest.map Pkt.counter).length := by rw [hcr]
        simpa using h2
      have hihr := ih rest2
      refine ⟨?_, hihr.2⟩
      simp only [List.map_cons, List.take_succ_cons, List.length_cons]
      rw [hihr.1, hcr, hlr]
      simp [hc3, Nat.add_sub_add_right]

/-- After the first `next` call drains a batch that hit a short read,
the trace is closed and yields exactly the batched frames followed by
`none` forever. -/
theorem traceRun_after_batch {σ : Type} (nextFn : σ → Nat → List Pkt × σ) (s0 c : σ)
    (ps : List Pkt) (h1 : nextFn s0 1024 = (ps, c)) (hc : nextFn c 1024 = ([], c)) :
    ∀ (m : Nat), ps.length < m →
      ((traceRun nextFn ⟨[], s0⟩ m).1.map (Option.map Pkt.counter)
        = ps.map (fun p => some p.counter) ++ List.replicate (m - ps.length) none)
      ∧ (traceRun nextFn ⟨[], s0⟩ m).2.cap = c
      ∧ (traceRun nextFn ⟨[], s0⟩ 1).2.cap = c := by
  have hfetch : traceFetch nextFn ⟨[], s0⟩ = ⟨ps, c⟩ := by
    unfold traceFetch
    rw [if_pos (by simp)]
    simp [h1]
  have hnext : ∀ (o : Option Pkt) (st2 : TraceSt σ), traceNext nextFn ⟨[], s0⟩ = (o, st2) →
      st2.cap = c ∧
      ((ps = [] ∧ o = none ∧ st2.pkt_queue = []) ∨
       (∃ p rest, ps = p :: rest ∧ o.map Pkt.counter = some p.counter ∧
          st2.pkt_queue.map Pkt.counter = rest.map Pkt.counter)) := by
    intro o st2 hns
    unfold traceNext at hns
    rw [hfetch] at hns
    cases hps : ps with
    | nil =>
      rw [hps] at hns
      simp only [] at hns
      injection hns with ho hst
      subst ho
      subst hst
      exact ⟨rfl, Or.inl ⟨rfl, rfl, rfl⟩⟩
    | cons p rest =>
      rw [hps] at hns
      simp only [] at hns
      rcases hia : inferAcked p rest with ⟨acked, ackp⟩
      rw [hia] at hns
      simp only [] at hns
      rcases hir : inferRetry { p with acked := acked, ack_pkt := ackp.map (·.counter) } rest
        with ⟨pkt3, rest2⟩
      rw [hir] at hns
      injection hns with ho hst
      subst ho
      subst hst
      have hc3 : pkt3.counter = p.counter := by
        have h0 := inferRetry_fst_counter
          { p with acked := acked, ack_pkt := ackp.map (·.counter) } rest
        rw [hir] at h0
        exact h0
      have hcr : rest2.map Pkt.counter = rest.map Pkt.counter := by
        have h0 := inferRetry_map_counter
          { p with acked := acked, ack_pkt := ackp.map (·.counter) } rest
        rw [hir] at h0
        exact h0
      exact ⟨rfl, Or.inr ⟨p, rest, rfl, by simp [hc3], hcr⟩⟩
  intro m hm
  cases m with
  | zero => omega
  | succ n =>
    rcases hns : traceNext nextFn ⟨[], s0⟩ with ⟨o, st2⟩
    obtain ⟨hcap2, hshape⟩ := hnext o st2 hns
    have hone : (traceRun nextFn ⟨[], s0⟩ 1).2.cap = c := by
      rw [traceRun_succ, hns]
      simp only [traceRun]
      exact hcap2
    have hq : st2 = ⟨st2.pkt_queue, st2.cap⟩ := rfl
    refine ⟨?_, ?_, hone⟩
    · rw [traceRun_succ, hns]
      simp only []
      rw [hq, hcap2]
      have hdrain := traceRun_closed nextFn c hc n st2.pkt_queue
      simp only [List.map_cons]
      rw [hdrain.1]
      rcases hshape with ⟨hps, ho, hqe⟩ | ⟨p, rest, hps, ho, hqc⟩
      · subst hps
        subst ho
        rw [hqe]
        simp [List.replicate_succ]
      · subst hps
        have hql : st2.pkt_queue.length = rest.length := by
          have h2 := congrArg List.length hqc
          simpa using h2
        rw [hqc, hql, ho]
        have hlen : rest.length ≤ n := by
          simp only [List.length_cons] at hm
          omega
        rw [List.take_of_length_le (by simpa using hlen)]
        have hmap : (rest.map Pkt.counter).map some = rest.map (fun p => some p.counter) := by
          simp
        rw [hmap]
        simp [Nat.add_sub_add_right]
    · rw [traceRun_succ, hns]
      simp only []
      rw [hq, hcap2]
      exact (traceRun_closed nextFn c hc n st2.pkt_queue).2

/-- The peek-tagged batch loop on a stream of packets followed by a
short read inside the tagged header: all packets before the short read
are batched, and the file handle is closed. -/
theorem peekNextGo_shortread :
    ∀ (ps : List Pkt) (junk : List PeekRes) (acc : List Pkt) (n : Nat),
      ps.length < n →
      peekNextGo n acc (ps.map PeekRes.pkt ++ PeekRes.shortTag :: junk) = (acc ++ ps, none) := by
  intro ps
  induction ps with
  | nil =>
    intro junk acc n hn
    cases n with
    | zero => omega
    | succ n => simp [peekNextGo]
  | cons p rest ih =>
    intro junk acc n hn
    cases n with
    | zero => omega
    | succ n =>
      unfold peekNextGo
      simp only [List.map_cons, List.cons_append]
      rw [ih junk (acc ++ [p]) n (by simpa using hn)]
      simp

/-- C8: the claim's behavior — a mid-stream short read inside the
envelope makes iteration end cleanly with the frames read so far — holds
on the peek-tagged path, but on the Pcap path of this snapshot it is
unreachable fiction: (1) peek-tagged: with the per-packet reader
producing `ps` good frames and then a short read inside the tagged
header, within one 1024-frame batch, the first `next()` call already
leaves the trace closed (`fh = None`), every frame read before the
short read is emitted in order, and every later call yields `none`;
(2) Pcap: when the very first record read raises `IOError` (a short
read of the 16-byte record header or of the payload), the handle is
closed and every call yields `none` — but no frame can ever precede
such a short read, because (3) on a well-formed linktype-127 record
(`c8Bytes`) the batch loop instead propagates the uncaught
`AttributeError` of `phy.it_len` (pcap.py line 173), so `next()`
raises rather than emitting the frame and then EOF. -/
theorem C8_short_read_terminates :
    (∀ (ps : List Pkt) (junk : List PeekRes) (m : Nat),
      ps.length < 1024 → ps.length < m →
      ((traceRun peekNext ⟨[], some (ps.map PeekRes.pkt ++ PeekRes.shortTag :: junk)⟩ m).1.map
          (Option.map Pkt.counter)
        = ps.map (fun p => some p.counter) ++ List.replicate (m - ps.length) none)
      ∧ (traceRun peekNext ⟨[], some (ps.map PeekRes.pkt ++ PeekRes.shortTag :: junk)⟩ m).2.cap
          = none
      ∧ (traceRun peekNext ⟨[], some (ps.map PeekRes.pkt ++ PeekRes.shortTag :: junk)⟩ 1).2.cap
          = none)
    ∧ (∀ (g : PcapGlobal) (fx : Bool) (data : List Nat) (pos : Nat) (m : Nat),
        pcapReadOnePkt g fx data pos = .error .ioError → 1 ≤ m →
        traceRunE (pcapNextE g fx data) ⟨[], some pos⟩ m
          = .ok (List.replicate m none, ⟨[], none⟩))
    ∧ pcapNextE c8Global false c8Bytes (some 0) 1024 = .error .otherError := by
  refine ⟨?_, ?_, by with_unfolding_all rfl⟩
  · intro ps junk m hlen hm
    have hbatch : peekNext (some (ps.map PeekRes.pkt ++ PeekRes.shortTag :: junk)) 1024
        = (ps, none) := by
      unfold peekNext
      have := peekNextGo_shortread ps junk [] 1024 hlen
      simpa using this
    exact traceRun_after_batch peekNext _ none ps hbatch rfl m hm
  · intro g fx data pos m hio hm
    have hgo : ∀ (k : Nat), pcapNextGoE g fx data (Nat.succ k) pos [] = .ok ([], none) := by
      intro k
      unfold pcapNextGoE
      simp only [hio]
    have hbatch : pcapNextE g fx data (some pos) 1024 = .ok ([], none) := hgo 1023
    have hfetch : traceFetchE (pcapNextE g fx data) ⟨[], some pos⟩ = .ok ⟨[], none⟩ := by
      unfold traceFetchE
      rw [if_pos (by simp)]
      simp [hbatch]
    have hnext : traceNextE (pcapNextE g fx data) ⟨[], some pos⟩ = .ok (none, ⟨[], none⟩) := by
      unfold traceNextE
      rw [hfetch]
    obtain ⟨k, hk⟩ : ∃ k, m = k + 1 := ⟨m - 1, by omega⟩
    subst hk
    unfold traceRunE
    rw [hnext]
    simp only []
    rw [traceRunE_closed_nil (pcapNextE g fx data) none rfl k]
    simp [List.replicate_succ]

/-- Witness for C8: the peek-tagged half at a one-packet stream hitting
a short read, iterated three times; the Pcap half at an empty file
(the 16-byte record-header read comes up short at once), iterated
twice. -/
theorem C8_short_read_terminates_witness :
    (((traceRun peekNext ⟨[], some [PeekRes.pkt c8q, PeekRes.shortTag]⟩ 3).1.map
        (Option.map Pkt.counter)
      = [c8q].map (fun p => some p.counter) ++ List.replicate (3 - [c8q].length) none)
     ∧ (traceRun peekNext ⟨[], some [PeekRes.pkt c8q, PeekRes.shortTag]⟩ 3).2.cap = none
     ∧ (traceRun peekNext ⟨[], some [PeekRes.pkt c8q, PeekRes.shortTag]⟩ 1).2.cap = none)
    ∧ (pcapReadOnePkt c8Global false [] 0 = .error .ioError ∧
       traceRunE (pcapNextE c8Global false []) ⟨[], some 0⟩ 2
         = .ok (List.replicate 2 none, ⟨[], none⟩)) :=
  ⟨C8_short_read_terminates.1 [c8q] [] 3 (by norm_num) (by norm_num),
   by with_unfolding_all rfl,
   C8_short_read_terminates.2.1 c8Global false [] 0 2
     (by with_unfolding_all rfl) (by norm_num)⟩

end Wltrace
